import Mathlib

/-!
# lime-go: envelope model and channel lifecycle manager

A shallow embedding of `envelope.go` and `client.go`.

* Go pointers that may be `nil` are `Option` values; a Go `error` result is an
  `Option Error` (`none` is the `nil` error).
* Methods with a pointer receiver that assign to the receiver return the new
  value of the receiver next to their results.
* Collaborators that the two files only call (the JSON codec, the channel
  builder, the channel, the transport, the context, the clock) are parameters:
  deterministic state machines over an arbitrary hidden state `σ`.  Every call to
  one of them that the claims count is appended to a trace of `Event`s.
-/

namespace Lime

/-! ## Errors -/

/-- Go `error` values, by origin.  `errorsNew text` is `errors.New(text)`,
`json text` an error produced by `encoding/json` while marshalling,
`wrapped format inner` is `fmt.Errorf(format, inner)` with one `%w` verb, and
`external code` an error value handed over by a collaborator. -/
inductive Error where
  | errorsNew (text : String)
  | json (text : String)
  | wrapped (format : String) (inner : Error)
  | external (code : Nat)
deriving DecidableEq, Repr

/-- The call `fmt.Errorf(format, err)` where `format` holds one `%w`. -/
def fmtErrorf (format : String) (err : Error) : Error :=
  Error.wrapped format err

/-- The chain walked by `errors.Is`: the error itself, or anything it wraps. -/
def Error.wraps : Error → Error → Bool
  | Error.wrapped f inner, target =>
      decide (Error.wrapped f inner = target) || Error.wraps inner target
  | e, target => decide (e = target)

/-! ## envelope.go -/

/-- Modelled from the spec: the `Node` struct is declared outside `envelope.go`;
the spec gives it a name, a domain and an instance fragment, compared by value. -/
structure Node where
  Name : String
  Domain : String
  Instance : String
deriving DecidableEq, Repr

/-- The composite literal `Node{}`. -/
def Node.zero : Node := ⟨"", "", ""⟩

/-- A Go `map[string]string` value: `none` is the nil map, `some kvs` a map
holding the entries `kvs`. -/
abbrev Metadata := Option (List (String × String))

/-- The struct `EnvelopeBase`. -/
structure EnvelopeBase where
  ID : String
  From : Node
  PP : Node
  To : Node
  Metadata : Metadata
deriving DecidableEq, Repr

/-- The struct `EnvelopeBaseWrapper`; its `*Node` fields are optional nodes. -/
structure EnvelopeBaseWrapper where
  ID : String
  From : Option Node
  PP : Option Node
  To : Option Node
  Metadata : Metadata
deriving DecidableEq, Repr

/-- The zero value `EnvelopeBase{}`. -/
def EnvelopeBase.zero : EnvelopeBase := ⟨"", Node.zero, Node.zero, Node.zero, none⟩

/-- The zero value `EnvelopeBaseWrapper{}`. -/
def EnvelopeBaseWrapper.zero : EnvelopeBaseWrapper := ⟨"", none, none, none, none⟩

def EnvelopeBase.GetID (e : EnvelopeBase) : String := e.ID

def EnvelopeBase.GetFrom (e : EnvelopeBase) : Node := e.From

def EnvelopeBase.GetPP (e : EnvelopeBase) : Node := e.PP

def EnvelopeBase.GetTo (e : EnvelopeBase) : Node := e.To

def EnvelopeBase.GetMetadata (e : EnvelopeBase) : Lime.Metadata := e.Metadata

/-- The method `(e *EnvelopeBase) toWrapper()`, for a non-nil receiver. -/
def EnvelopeBase.toWrapper (e : EnvelopeBase) : EnvelopeBaseWrapper × Option Error :=
  let ew := EnvelopeBaseWrapper.zero
  let ew := { ew with ID := e.ID }
  let ew := if e.From ≠ Node.zero then { ew with From := some e.From } else ew
  let ew := if e.PP ≠ Node.zero then { ew with PP := some e.PP } else ew
  let ew := if e.To ≠ Node.zero then { ew with To := some e.To } else ew
  (ew, none)

/-- The method `(e *EnvelopeBase) populate(ew *EnvelopeBaseWrapper)`.  Both the
receiver and the argument are pointers that may be nil; the first component
of the result is the receiver after the call. -/
def EnvelopeBase.populate (e : Option EnvelopeBase) (ew : Option EnvelopeBaseWrapper) :
    Option EnvelopeBase × Option Error :=
  match ew, e with
  | none, _ => (e, none)
  | _, none => (e, none)
  | some ew, some e =>
    let e := { e with ID := ew.ID }
    let e := { e with Metadata := ew.Metadata }
    let e := match ew.From with
      | some n => { e with From := n }
      | none => e
    let e := match ew.PP with
      | some n => { e with PP := n }
      | none => e
    let e := match ew.To with
      | some n => { e with To := n }
      | none => e
    (some e, none)

/-- The bytes of a `json.RawMessage`. -/
structure RawMessage where
  bytes : List Nat
deriving DecidableEq, Repr

/-- A Go `map[string]*json.RawMessage`: the entries of the map. -/
abbrev JSONMap := List (String × Option RawMessage)

/-- The comma-ok lookup `_, ok := m[key]`. -/
def hasKey (m : JSONMap) (key : String) : Bool :=
  m.any (fun kv => kv.1 == key)

/-- The four concrete envelope types `UnmarshalJSONMap` allocates. -/
inductive EnvelopeKind where
  | Command
  | Notification
  | Message
  | Session
deriving DecidableEq, Repr

/-- The `encoding/json` calls of `UnmarshalJSONMap`.  `Marshal m` is
`json.Marshal(m)`; `Unmarshal data k` is `json.Unmarshal(data, e)` for a freshly
allocated `e` of kind `k`, giving the decoded fields (of a type `β` declared
outside `envelope.go`) and the error. -/
structure JSONCodec (β : Type) where
  Marshal : JSONMap → Except String (List Nat)
  Unmarshal : List Nat → EnvelopeKind → β × Option Error

/-- A non-nil `Envelope` interface value: a pointer to one of the four kinds. -/
structure Envelope (β : Type) where
  kind : EnvelopeKind
  fields : β
deriving DecidableEq, Repr

/-- The function `UnmarshalJSONMap`. -/
def UnmarshalJSONMap {β : Type} (J : JSONCodec β) (m : JSONMap) :
    Option (Envelope β) × Option Error :=
  let e : Option EnvelopeKind := none
  let e := if hasKey m "method" then some EnvelopeKind.Command else e
  let e := if hasKey m "event" then some EnvelopeKind.Notification else e
  let e := if hasKey m "content" then some EnvelopeKind.Message else e
  let e := if hasKey m "state" then some EnvelopeKind.Session else e
  match e with
  | none => (none, some (Error.errorsNew "could not determine the envelope type"))
  | some k =>
    match J.Marshal m with
    | Except.error text => (none, some (Error.json text))
    | Except.ok data =>
      let r := J.Unmarshal data k
      (some ⟨k, r.1⟩, r.2)

/-- A codec for concrete evaluations: marshalling succeeds with no bytes and
unmarshalling leaves the allocated envelope as it is. -/
def unitCodec : JSONCodec Unit where
  Marshal := fun _ => Except.ok []
  Unmarshal := fun _ _ => ((), none)

/-! ## client.go -/

/-- A non-nil `*ClientChannel`; the struct is declared outside `client.go`, so a
channel is known here only by its address. -/
structure ClientChannel where
  addr : Nat
deriving DecidableEq, Repr

/-- A `*Message` argument: nil or the address of a message. -/
abbrev MessageRef := Option Nat

/-- The `context.Context` values the client sees: `context.Background()`,
`context.WithTimeout(parent, timeout)` with the timeout in nanoseconds, and a
context handed in by the caller. -/
inductive Context where
  | Background
  | WithTimeout (parent : Context) (timeout : Int)
  | caller (id : Nat)
deriving DecidableEq, Repr

/-- The constant `time.Millisecond`, in nanoseconds. -/
def Millisecond : Int := 1000000

/-- The constant `time.Second`, in nanoseconds. -/
def Second : Int := 1000 * Millisecond

/-- Two's complement wrap-around of an `int64` result. -/
def wrapInt64 (x : Int) : Int := (x + 2 ^ 63) % 2 ^ 64 - 2 ^ 63

/-- The calls to collaborators, in the order they are made. -/
inductive Event where
  | Build (ctx : Context)
  | FinishSession (channel : ClientChannel) (ctx : Context)
  | TransportClose (channel : ClientChannel)
  | SendMessage (channel : ClientChannel) (ctx : Context) (msg : MessageRef)
  | LogPrintf (count : Nat) (interval : Int) (err : Option Error)
  | Sleep (d : Int)
deriving DecidableEq, Repr

/-- The interface `ClientBuilder`: `Build ctx` on the hidden state `σ`. -/
structure ClientBuilder (σ : Type) where
  Build : Context → σ → (Option ClientChannel × Option Error) × σ

/-- What `client.go` calls on a context, a channel, its transport and the
clock: `ctx.Err()`, `channel.Established()`, `channel.FinishSession(ctx)` (the
session result is discarded by the caller), `channel.transport.Close()`,
`channel.SendMessage(ctx, msg)` and `time.Sleep(d)`. -/
structure Runtime (σ : Type) where
  Err : Context → σ → Option Error
  Established : ClientChannel → σ → Bool
  FinishSession : ClientChannel → Context → σ → Option Error × σ
  transportClose : ClientChannel → σ → Option Error × σ
  SendMessage : ClientChannel → Context → MessageRef → σ → Option Error × σ
  Sleep : Int → σ → σ

/-- The hidden state of the collaborators and the calls made so far. -/
structure World (σ : Type) where
  env : σ
  trace : List Event

/-- The struct `client`.  The mutex `buildMu` is free whenever a call starts in
a sequential run and `Lock` with the deferred `Unlock` leaves it free; the field
`mux` is not read by any method of `client.go`. -/
structure client (σ : Type) where
  channel : Option ClientChannel
  builder : ClientBuilder σ

/-- How a call ends: with its results, or in a Go panic. -/
inductive Outcome (α : Type) where
  | returns (a : α)
  | panics (text : String)
deriving DecidableEq, Repr

/-- The number of `Build` calls in a trace. -/
def buildCount (t : List Event) : Nat :=
  t.countP (fun ev => match ev with
    | Event.Build _ => true
    | _ => false)

/-- The number of `FinishSession` calls in a trace. -/
def finishCount (t : List Event) : Nat :=
  t.countP (fun ev => match ev with
    | Event.FinishSession _ _ => true
    | _ => false)

/-- The number of transport `Close` calls in a trace. -/
def transportCloseCount (t : List Event) : Nat :=
  t.countP (fun ev => match ev with
    | Event.TransportClose _ => true
    | _ => false)

/-- The number of `time.Sleep` calls in a trace. -/
def sleepCount (t : List Event) : Nat :=
  t.countP (fun ev => match ev with
    | Event.Sleep _ => true
    | _ => false)

/-- The method `(c *client) Close()`; the deferred `cancelFunc()` only releases
the timeout context, which nothing reads afterwards. -/
def client.Close {σ : Type} (R : Runtime σ) (c : client σ) (w : World σ) :
    Option Error × client σ × World σ :=
  match c.channel with
  | none => (none, c, w)
  | some channel =>
    if R.Established channel w.env then
      let ctx := Context.WithTimeout Context.Background (Second * 5)
      let r := R.FinishSession channel ctx w.env
      let w : World σ := ⟨r.2, w.trace ++ [Event.FinishSession channel ctx]⟩
      let c := { c with channel := none }
      (r.1, c, w)
    else
      let r := R.transportClose channel w.env
      let w : World σ := ⟨r.2, w.trace ++ [Event.TransportClose channel]⟩
      let c := { c with channel := none }
      (r.1, c, w)

/-- The method `(c *client) channelOK()`. -/
def client.channelOK {σ : Type} (R : Runtime σ) (c : client σ) (w : World σ) : Bool :=
  match c.channel with
  | none => false
  | some channel => R.Established channel w.env

/-- The method `(c *client) buildChannel(ctx)`. -/
def client.buildChannel {σ : Type} (c : client σ) (ctx : Context) (w : World σ) :
    (Option ClientChannel × Option Error) × client σ × World σ :=
  let r := c.builder.Build ctx w.env
  let w : World σ := ⟨r.2, w.trace ++ [Event.Build ctx]⟩
  match r.1.2 with
  | some err => ((none, some (fmtErrorf "getOrBuildChannel: %w" err)), c, w)
  | none =>
    let c := { c with channel := r.1.1 }
    ((c.channel, none), c, w)

/-- The number of low bits a natural number loses when it is stored in the
53-bit significand of a `float64`: the least `e` with `n / 2 ^ e < 2 ^ 53`,
searched up to `fuel`. -/
def float64Shift : Nat → Nat → Nat
  | 0, _ => 0
  | fuel + 1, n => if n < 2 ^ 53 then 0 else float64Shift fuel (n / 2) + 1

/-- The `float64` nearest to a natural number below `2 ^ 1024`, ties going to
the even significand: the rounding of every `float64` operation. -/
def roundFloat64 (n : Nat) : Nat :=
  let e := float64Shift 1024 n
  let q := n / 2 ^ e
  let r := n % 2 ^ e
  if 2 ^ e < 2 * r ∨ (2 * r = 2 ^ e ∧ q % 2 = 1) then (q + 1) * 2 ^ e else q * 2 ^ e

/-- The value of the `float64` variable `count` after the given number of
`count++`: the increments are exact up to `2 ^ 53`, where `count + 1` rounds
back to `count`. -/
def float64Count (count : Nat) : Nat := min count (2 ^ 53)

/-- The value `time.Duration(math.Pow(count, 2) * 100)` in the round numbered
`count`: the square and the product are rounded to `float64`, and the result
is converted to `int64`.  Go leaves the conversion of a `float64` outside the
`int64` range to the implementation; the value taken here is the one amd64
gives. -/
def interval (count : Nat) : Int :=
  let f := roundFloat64 (roundFloat64 (float64Count count ^ 2) * 100)
  if f < 2 ^ 63 then (f : Int) else -(2 ^ 63)

/-- The argument `interval * time.Millisecond` of `time.Sleep`, an `int64`
product. -/
def sleepDuration (count : Nat) : Int := wrapInt64 (interval count * Millisecond)

/-- The `for ctx.Err() == nil` loop of `getOrBuildChannel` together with the
return that follows it, entered with the given `count`.  Each test of the loop
condition takes one unit of fuel; `none` means the fuel ran out. -/
def client.buildLoop {σ : Type} (R : Runtime σ) (ctx : Context) :
    Nat → Nat → client σ → World σ →
      Option ((Option ClientChannel × Option Error) × client σ × World σ)
  | 0, _, _, _ => none
  | fuel + 1, count, c, w =>
    match R.Err ctx w.env with
    | some ctxErr => some ((none, some (fmtErrorf "getOrBuildChannel: %w" ctxErr)), c, w)
    | none =>
      let b := client.buildChannel c ctx w
      match b.1.1 with
      | some channel => some ((some channel, none), b.2.1, b.2.2)
      | none =>
        let w1 := b.2.2
        let w2 : World σ :=
          ⟨w1.env, w1.trace ++ [Event.LogPrintf count (interval count) b.1.2]⟩
        let w3 : World σ :=
          ⟨R.Sleep (sleepDuration count) w2.env, w2.trace ++ [Event.Sleep (sleepDuration count)]⟩
        client.buildLoop R ctx fuel (count + 1) b.2.1 w3

/-- The method `(c *client) getOrBuildChannel(ctx)`. -/
def client.getOrBuildChannel {σ : Type} (R : Runtime σ) (fuel : Nat) (c : client σ)
    (ctx : Context) (w : World σ) :
    Option ((Option ClientChannel × Option Error) × client σ × World σ) :=
  if client.channelOK R c w then some ((c.channel, none), c, w)
  else if client.channelOK R c w then some ((c.channel, none), c, w)
  else client.buildLoop R ctx fuel 0 c w

/-- The method `(c *client) SendMessage(ctx, msg)`.  Calling `SendMessage` on a
nil `*ClientChannel` is a nil dereference. -/
def client.SendMessage {σ : Type} (R : Runtime σ) (fuel : Nat) (c : client σ)
    (ctx : Context) (msg : MessageRef) (w : World σ) :
    Option (Outcome (Option Error) × client σ × World σ) :=
  match client.getOrBuildChannel R fuel c ctx w with
  | none => none
  | some ((_, some err), c, w) => some (Outcome.returns (some err), c, w)
  | some ((none, none), c, w) => some (Outcome.panics "nil pointer dereference", c, w)
  | some ((some channel, none), c, w) =>
    let r := R.SendMessage channel ctx msg w.env
    some (Outcome.returns r.1, c, ⟨r.2, w.trace ++ [Event.SendMessage channel ctx msg]⟩)

/-- The hidden state in which attempt number `k` of the loop starts, when the
loop is entered in state `s` with the given `count` and every earlier attempt
went on to the sleep. -/
def attemptEnv {σ : Type} (R : Runtime σ) (B : ClientBuilder σ) (ctx : Context) :
    Nat → Nat → σ → σ
  | 0, _, s => s
  | k + 1, count, s =>
    attemptEnv R B ctx k (count + 1) (R.Sleep (sleepDuration count) (B.Build ctx s).2)

/-- A caller that issues the sends of `sends` one after the other, each with the
same fuel; the outcomes are collected in order. -/
def sendAll {σ : Type} (R : Runtime σ) (fuel : Nat) :
    List (Context × MessageRef) → client σ → World σ →
      Option (List (Outcome (Option Error)) × client σ × World σ)
  | [], c, w => some ([], c, w)
  | (ctx, msg) :: rest, c, w =>
    match client.SendMessage R fuel c ctx msg w with
    | none => none
    | some (o, c1, w1) =>
      match sendAll R fuel rest c1 w1 with
      | none => none
      | some (os, c2, w2) => some (o :: os, c2, w2)

/-- The channels on which `SendMessage` was called, in order. -/
def sendChannels (t : List Event) : List ClientChannel :=
  t.filterMap (fun ev => match ev with
    | Event.SendMessage channel _ _ => some channel
    | _ => none)

/-- The arguments of the `time.Sleep` calls in a trace, in order. -/
def sleepDurations (t : List Event) : List Int :=
  t.filterMap (fun ev => match ev with
    | Event.Sleep d => some d
    | _ => none)

/-- A `*Notification` argument: nil or the address of a notification. -/
abbrev NotificationRef := Option Nat

/-- A `*Command` argument or result: nil or the address of a command. -/
abbrev CommandRef := Option Nat

/-- The method `(c *client) SendNotification(ctx, not)`: its body is
`panic("implement me")`. -/
def client.SendNotification {σ : Type} (c : client σ) (_ctx : Context)
    (_not : NotificationRef) (w : World σ) :
    Outcome (Option Error) × client σ × World σ :=
  (Outcome.panics "implement me", c, w)

/-- The method `(c *client) SendCommand(ctx, cmd)`: its body is
`panic("implement me")`. -/
def client.SendCommand {σ : Type} (c : client σ) (_ctx : Context)
    (_cmd : CommandRef) (w : World σ) :
    Outcome (Option Error) × client σ × World σ :=
  (Outcome.panics "implement me", c, w)

/-- The method `(c *client) ProcessCommand(ctx, cmd)`: its body is
`panic("implement me")`. -/
def client.ProcessCommand {σ : Type} (c : client σ) (_ctx : Context)
    (_cmd : CommandRef) (w : World σ) :
    Outcome (CommandRef × Option Error) × client σ × World σ :=
  (Outcome.panics "implement me", c, w)

/-- A runtime for concrete evaluations.  The hidden state counts the `Build`
calls made so far; the builder fails on its first two calls and then hands out
the channel at address `7`; the context `caller 0` is never done and every other
caller context is done; channel `7` is established, every other one is not;
`FinishSession` fails with error `1`, the transport's `Close` with error `2`. -/
def demoRuntime : Runtime Nat where
  Err := fun ctx _ => match ctx with
    | Context.caller 0 => none
    | Context.caller _ => some (Error.external 9)
    | _ => none
  Established := fun channel _ => decide (channel.addr = 7)
  FinishSession := fun _ _ s => (some (Error.external 1), s)
  transportClose := fun _ s => (some (Error.external 2), s)
  SendMessage := fun _ _ _ s => (none, s)
  Sleep := fun _ s => s

/-- The builder that goes with `demoRuntime`. -/
def demoBuilder : ClientBuilder Nat where
  Build := fun _ s =>
    if s < 2 then ((none, some (Error.external 3)), s + 1) else ((some ⟨7⟩, none), s + 1)

/-- A second runtime for concrete evaluations: as `demoRuntime`, but every
context is done once the builder has been called twice. -/
def deadlineRuntime : Runtime Nat where
  Err := fun _ s => if 2 ≤ s then some (Error.external 9) else none
  Established := demoRuntime.Established
  FinishSession := demoRuntime.FinishSession
  transportClose := demoRuntime.transportClose
  SendMessage := demoRuntime.SendMessage
  Sleep := demoRuntime.Sleep

/-- A runtime with a clock for concrete evaluations.  The hidden state is the
number of `Build` calls made so far and the time in nanoseconds; `time.Sleep`
advances the time by its argument when that is positive; the context
`caller 0` is never done and every other caller context is done; channel `7` is
established. -/
def clockRuntime : Runtime (Nat × Int) where
  Err := fun ctx _ => match ctx with
    | Context.caller 0 => none
    | Context.caller _ => some (Error.external 9)
    | _ => none
  Established := fun channel _ => decide (channel.addr = 7)
  FinishSession := fun _ _ s => (none, s)
  transportClose := fun _ s => (none, s)
  SendMessage := fun _ _ _ s => (none, s)
  Sleep := fun d s => (s.1, if d < 0 then s.2 else s.2 + d)

/-- The builder that goes with `clockRuntime`: it fails on its first two calls
and then hands out the channel at address `7`, taking no time. -/
def clockBuilder : ClientBuilder (Nat × Int) where
  Build := fun _ s =>
    if s.1 < 2 then ((none, some (Error.external 3)), (s.1 + 1, s.2))
    else ((some ⟨7⟩, none), (s.1 + 1, s.2))

/-- The part of `UnmarshalJSONMap` that follows the choice of the kind, from
`json.Marshal(m)` on, for an `e` of kind `k`. -/
def decodeAs {β : Type} (J : JSONCodec β) (m : JSONMap) (k : EnvelopeKind) :
    Option (Envelope β) × Option Error :=
  match J.Marshal m with
  | Except.error text => (none, some (Error.json text))
  | Except.ok data =>
    let r := J.Unmarshal data k
    (some ⟨k, r.1⟩, r.2)

/-- A codec for concrete evaluations on which `json.Marshal` fails. -/
def failingCodec : JSONCodec Unit where
  Marshal := fun _ => Except.error "invalid character"
  Unmarshal := fun _ _ => ((), none)

end Lime

namespace Lime

/-! ## Theorems: envelope.go -/

/-- C1, as stated, fails: on a payload that holds both a `method` and an `event`
key (and marshals without error) `UnmarshalJSONMap` returns a Notification, not
a Command. -/
theorem UnmarshalJSONMap_method_event_is_notification :
    hasKey [("method", some ⟨[34, 103, 101, 116, 34]⟩), ("event", some ⟨[34, 102, 97, 105, 108, 101, 100, 34]⟩)] "method" = true ∧
    hasKey [("method", some ⟨[34, 103, 101, 116, 34]⟩), ("event", some ⟨[34, 102, 97, 105, 108, 101, 100, 34]⟩)] "event" = true ∧
    UnmarshalJSONMap unitCodec
        [("method", some ⟨[34, 103, 101, 116, 34]⟩), ("event", some ⟨[34, 102, 97, 105, 108, 101, 100, 34]⟩)]
      = (some ⟨EnvelopeKind.Notification, ()⟩, none) ∧
    (UnmarshalJSONMap unitCodec
        [("method", some ⟨[34, 103, 101, 116, 34]⟩), ("event", some ⟨[34, 102, 97, 105, 108, 101, 100, 34]⟩)]).1
      ≠ some ⟨EnvelopeKind.Command, ()⟩ := by
  decide

/-- C1, amended: when the payload holds one of the four keys and marshals
without error, `UnmarshalJSONMap` returns the envelope of the kind picked by
last-match-wins over the order method, event, content, state: Session if `state`
is present, otherwise Message if `content` is, otherwise Notification if `event`
is, otherwise Command; the fields and the error are those of `json.Unmarshal`. -/
theorem UnmarshalJSONMap_last_match_wins {β : Type} (J : JSONCodec β) (m : JSONMap)
    (data : List Nat)
    (hk : hasKey m "method" = true ∨ hasKey m "event" = true ∨
      hasKey m "content" = true ∨ hasKey m "state" = true)
    (hm : J.Marshal m = Except.ok data) :
    UnmarshalJSONMap J m =
      (some ⟨(if hasKey m "state" then EnvelopeKind.Session
              else if hasKey m "content" then EnvelopeKind.Message
              else if hasKey m "event" then EnvelopeKind.Notification
              else EnvelopeKind.Command),
            (J.Unmarshal data
              (if hasKey m "state" then EnvelopeKind.Session
               else if hasKey m "content" then EnvelopeKind.Message
               else if hasKey m "event" then EnvelopeKind.Notification
               else EnvelopeKind.Command)).1⟩,
        (J.Unmarshal data
          (if hasKey m "state" then EnvelopeKind.Session
           else if hasKey m "content" then EnvelopeKind.Message
           else if hasKey m "event" then EnvelopeKind.Notification
           else EnvelopeKind.Command)).2) := by
  unfold UnmarshalJSONMap
  cases h1 : hasKey m "method" <;> cases h2 : hasKey m "event" <;>
    cases h3 : hasKey m "content" <;> cases h4 : hasKey m "state" <;>
    simp_all

/-- Witness of C1, amended: a payload with `method` and `event` decodes to a
Notification. -/
theorem UnmarshalJSONMap_last_match_wins_witness :
    UnmarshalJSONMap unitCodec [("method", some ⟨[49]⟩), ("event", some ⟨[50]⟩)] =
      (some ⟨(if hasKey [("method", some ⟨[49]⟩), ("event", some ⟨[50]⟩)] "state"
                then EnvelopeKind.Session
              else if hasKey [("method", some ⟨[49]⟩), ("event", some ⟨[50]⟩)] "content"
                then EnvelopeKind.Message
              else if hasKey [("method", some ⟨[49]⟩), ("event", some ⟨[50]⟩)] "event"
                then EnvelopeKind.Notification
              else EnvelopeKind.Command),
            (unitCodec.Unmarshal []
              (if hasKey [("method", some ⟨[49]⟩), ("event", some ⟨[50]⟩)] "state"
                 then EnvelopeKind.Session
               else if hasKey [("method", some ⟨[49]⟩), ("event", some ⟨[50]⟩)] "content"
                 then EnvelopeKind.Message
               else if hasKey [("method", some ⟨[49]⟩), ("event", some ⟨[50]⟩)] "event"
                 then EnvelopeKind.Notification
               else EnvelopeKind.Command)).1⟩,
        (unitCodec.Unmarshal []
          (if hasKey [("method", some ⟨[49]⟩), ("event", some ⟨[50]⟩)] "state"
             then EnvelopeKind.Session
           else if hasKey [("method", some ⟨[49]⟩), ("event", some ⟨[50]⟩)] "content"
             then EnvelopeKind.Message
           else if hasKey [("method", some ⟨[49]⟩), ("event", some ⟨[50]⟩)] "event"
             then EnvelopeKind.Notification
           else EnvelopeKind.Command)).2) :=
  UnmarshalJSONMap_last_match_wins unitCodec
    [("method", some ⟨[49]⟩), ("event", some ⟨[50]⟩)] [] (by decide) rfl

/-- C2: `UnmarshalJSONMap` returns the nil envelope together with the error
"could not determine the envelope type" exactly when the payload holds none of
the keys `method`, `event`, `content`, `state`. -/
theorem UnmarshalJSONMap_unknown_iff {β : Type} (J : JSONCodec β) (m : JSONMap) :
    UnmarshalJSONMap J m =
        (none, some (Error.errorsNew "could not determine the envelope type")) ↔
      (hasKey m "method" = false ∧ hasKey m "event" = false ∧
        hasKey m "content" = false ∧ hasKey m "state" = false) := by
  unfold UnmarshalJSONMap
  cases h1 : hasKey m "method" <;> cases h2 : hasKey m "event" <;>
    cases h3 : hasKey m "content" <;> cases h4 : hasKey m "state" <;>
    simp <;> cases J.Marshal m <;> simp

/-- C3: `toWrapper` returns a nil error and, for each of `From`, `PP` and `To`,
the wrapper field is present exactly when the field of `e` differs from the zero
Node, and then it holds that Node; a zero `From` gives no `from` field. -/
theorem toWrapper_address_fields (e : EnvelopeBase) :
    (EnvelopeBase.toWrapper e).2 = none ∧
    (((EnvelopeBase.toWrapper e).1.From.isSome = true ↔ e.From ≠ Node.zero) ∧
      ∀ n, (EnvelopeBase.toWrapper e).1.From = some n → n = e.From) ∧
    (((EnvelopeBase.toWrapper e).1.PP.isSome = true ↔ e.PP ≠ Node.zero) ∧
      ∀ n, (EnvelopeBase.toWrapper e).1.PP = some n → n = e.PP) ∧
    (((EnvelopeBase.toWrapper e).1.To.isSome = true ↔ e.To ≠ Node.zero) ∧
      ∀ n, (EnvelopeBase.toWrapper e).1.To = some n → n = e.To) ∧
    (EnvelopeBase.toWrapper { e with From := Node.zero }).1.From = none := by
  unfold EnvelopeBase.toWrapper EnvelopeBaseWrapper.zero
  by_cases h1 : e.From = Node.zero <;> by_cases h2 : e.PP = Node.zero <;>
    by_cases h3 : e.To = Node.zero <;> simp [h1, h2, h3]

/-- Witness of C3 on an envelope whose `From` is set and whose `PP` and `To`
are zero. -/
theorem toWrapper_address_fields_witness :
    (EnvelopeBase.toWrapper ⟨"1", ⟨"a", "b.c", "d"⟩, Node.zero, Node.zero, none⟩).1 =
      ⟨"1", some ⟨"a", "b.c", "d"⟩, none, none, none⟩ ∧
    ((EnvelopeBase.toWrapper ⟨"1", ⟨"a", "b.c", "d"⟩, Node.zero, Node.zero, none⟩).1.From.isSome
        = true ↔ (⟨"a", "b.c", "d"⟩ : Node) ≠ Node.zero) :=
  ⟨by decide,
    (toWrapper_address_fields ⟨"1", ⟨"a", "b.c", "d"⟩, Node.zero, Node.zero, none⟩).2.1.1⟩

/-- C4: populating a zero-valued base from `toWrapper e` gives a base with the
`ID`, `From`, `PP` and `To` of `e`; populating a zero-valued base from a wrapper
without `from` (or `pp`, or `to`) leaves the zero Node in that field. -/
theorem populate_toWrapper_roundtrip (e : EnvelopeBase) (ew : EnvelopeBaseWrapper) :
    (∃ e1, EnvelopeBase.populate (some EnvelopeBase.zero)
          (some (EnvelopeBase.toWrapper e).1) = (some e1, none) ∧
        e1.ID = e.ID ∧ e1.From = e.From ∧ e1.PP = e.PP ∧ e1.To = e.To) ∧
    (∃ e2, EnvelopeBase.populate (some EnvelopeBase.zero)
          (some { ew with From := none }) = (some e2, none) ∧ e2.From = Node.zero) ∧
    (∃ e3, EnvelopeBase.populate (some EnvelopeBase.zero)
          (some { ew with PP := none }) = (some e3, none) ∧ e3.PP = Node.zero) ∧
    (∃ e4, EnvelopeBase.populate (some EnvelopeBase.zero)
          (some { ew with To := none }) = (some e4, none) ∧ e4.To = Node.zero) := by
  refine ⟨?_, ?_, ?_, ?_⟩
  · unfold EnvelopeBase.populate EnvelopeBase.toWrapper EnvelopeBaseWrapper.zero
      EnvelopeBase.zero
    by_cases h1 : e.From = Node.zero <;> by_cases h2 : e.PP = Node.zero <;>
      by_cases h3 : e.To = Node.zero <;> simp [h1, h2, h3]
  · unfold EnvelopeBase.populate EnvelopeBase.zero
    cases ew.PP <;> cases ew.To <;> simp
  · unfold EnvelopeBase.populate EnvelopeBase.zero
    cases ew.From <;> cases ew.To <;> simp
  · unfold EnvelopeBase.populate EnvelopeBase.zero
    cases ew.From <;> cases ew.PP <;> simp

/-- C5, the code at the failing input: `toWrapper` leaves the wrapper's
`Metadata` nil although the envelope carries one entry, and a base populated
from that wrapper has nil `Metadata`. -/
theorem toWrapper_drops_metadata :
    (EnvelopeBase.toWrapper
        ⟨"1", Node.zero, Node.zero, Node.zero, some [("k", "v")]⟩).1.Metadata = none ∧
    (EnvelopeBase.populate (some EnvelopeBase.zero)
        (some (EnvelopeBase.toWrapper
          ⟨"1", Node.zero, Node.zero, Node.zero, some [("k", "v")]⟩).1)).1
      = some ⟨"1", Node.zero, Node.zero, Node.zero, none⟩ := by
  decide

/-! ## Theorems: client.go -/

/-- C6: whatever the manager holds and whatever `FinishSession` or the
transport's `Close` return, the manager holds no channel after `Close`. -/
theorem Close_clears_channel {σ : Type} (R : Runtime σ) (c : client σ) (w : World σ) :
    (client.Close R c w).2.1.channel = none := by
  unfold client.Close
  cases hc : c.channel with
  | none => simp [hc]
  | some channel =>
    by_cases he : R.Established channel w.env = true <;> simp [he]

/-- C7: `Close` on a manager without a channel returns nil, makes no call to a
collaborator and leaves manager and world as they were; hence the second of two
`Close` calls in sequence, from any state, returns nil and changes nothing. -/
theorem Close_without_channel_noop {σ : Type} (R : Runtime σ) (c : client σ) (w : World σ) :
    (c.channel = none →
      client.Close R c w = (none, c, w) ∧
      finishCount (client.Close R c w).2.2.trace = finishCount w.trace ∧
      transportCloseCount (client.Close R c w).2.2.trace = transportCloseCount w.trace) ∧
    client.Close R (client.Close R c w).2.1 (client.Close R c w).2.2 =
      (none, (client.Close R c w).2.1, (client.Close R c w).2.2) := by
  have h : ∀ (c1 : client σ) (w1 : World σ), c1.channel = none →
      client.Close R c1 w1 = (none, c1, w1) := by
    intro c1 w1 h1
    unfold client.Close
    simp [h1]
  refine ⟨?_, ?_⟩
  · intro hc
    rw [h c w hc]
    exact ⟨rfl, rfl, rfl⟩
  · exact h _ _ (by
      unfold client.Close
      cases hc : c.channel with
      | none => simp [hc]
      | some channel =>
        by_cases he : R.Established channel w.env = true <;> simp [he])

/-- Witness of C7: closing a manager without a channel, and closing a manager
that holds channel `8` twice. -/
theorem Close_without_channel_noop_witness :
    (client.Close demoRuntime ⟨none, demoBuilder⟩ ⟨0, []⟩).1 = none ∧
    (client.Close demoRuntime (client.Close demoRuntime ⟨some ⟨8⟩, demoBuilder⟩ ⟨0, []⟩).2.1
        (client.Close demoRuntime ⟨some ⟨8⟩, demoBuilder⟩ ⟨0, []⟩).2.2).1 = none :=
  ⟨congrArg Prod.fst
      ((Close_without_channel_noop demoRuntime ⟨none, demoBuilder⟩ ⟨0, []⟩).1 rfl).1,
    congrArg Prod.fst
      (Close_without_channel_noop demoRuntime ⟨some ⟨8⟩, demoBuilder⟩ ⟨0, []⟩).2⟩

/-- C8: with an established channel `Close` calls `FinishSession` once, with a
context of five seconds timeout, does not call the transport's `Close`, and
returns the error of `FinishSession`; with a channel that is not established it
calls the transport's `Close` once, does not call `FinishSession`, and returns
the transport's error. -/
theorem Close_selects_path {σ : Type} (R : Runtime σ) (c : client σ) (w : World σ)
    (channel : ClientChannel) (hc : c.channel = some channel) :
    (R.Established channel w.env = true →
      (client.Close R c w).1 =
        (R.FinishSession channel
          (Context.WithTimeout Context.Background 5000000000) w.env).1 ∧
      (client.Close R c w).2.2.trace = w.trace ++
        [Event.FinishSession channel (Context.WithTimeout Context.Background 5000000000)] ∧
      (client.Close R c w).2.2.env =
        (R.FinishSession channel
          (Context.WithTimeout Context.Background 5000000000) w.env).2 ∧
      finishCount (client.Close R c w).2.2.trace = finishCount w.trace + 1 ∧
      transportCloseCount (client.Close R c w).2.2.trace = transportCloseCount w.trace) ∧
    (R.Established channel w.env = false →
      (client.Close R c w).1 = (R.transportClose channel w.env).1 ∧
      (client.Close R c w).2.2.trace = w.trace ++ [Event.TransportClose channel] ∧
      (client.Close R c w).2.2.env = (R.transportClose channel w.env).2 ∧
      finishCount (client.Close R c w).2.2.trace = finishCount w.trace ∧
      transportCloseCount (client.Close R c w).2.2.trace =
        transportCloseCount w.trace + 1) := by
  have hs : Second * 5 = 5000000000 := by decide
  constructor
  · intro he
    simp [client.Close, hc, he, hs, finishCount, transportCloseCount, List.countP_append]
  · intro he
    simp [client.Close, hc, he, finishCount, transportCloseCount, List.countP_append]

/-- Witness of C8: channel `7` is established and is closed through
`FinishSession`; channel `8` is not and is closed through its transport. -/
theorem Close_selects_path_witness :
    (client.Close demoRuntime ⟨some ⟨7⟩, demoBuilder⟩ ⟨0, []⟩).1 = some (Error.external 1) ∧
    (client.Close demoRuntime ⟨some ⟨8⟩, demoBuilder⟩ ⟨0, []⟩).1 = some (Error.external 2) :=
  ⟨((Close_selects_path demoRuntime ⟨some ⟨7⟩, demoBuilder⟩ ⟨0, []⟩ ⟨7⟩ rfl).1 rfl).1,
    ((Close_selects_path demoRuntime ⟨some ⟨8⟩, demoBuilder⟩ ⟨0, []⟩ ⟨8⟩ rfl).2 rfl).1⟩

/-- C9: when the manager has no established channel and the context is already
done, `getOrBuildChannel` returns the nil channel and the context's error
wrapped by "getOrBuildChannel: %w"; the world is unchanged, so the builder is not
called and nothing sleeps, and the manager is unchanged. -/
theorem getOrBuildChannel_context_done {σ : Type} (R : Runtime σ) (c : client σ)
    (w : World σ) (ctx : Context) (ctxErr : Error) (fuel : Nat)
    (hok : client.channelOK R c w = false) (hdone : R.Err ctx w.env = some ctxErr) :
    client.getOrBuildChannel R (fuel + 1) c ctx w =
      some ((none, some (fmtErrorf "getOrBuildChannel: %w" ctxErr)), c, w) ∧
    Error.wraps (fmtErrorf "getOrBuildChannel: %w" ctxErr) ctxErr = true ∧
    (∀ r, client.getOrBuildChannel R (fuel + 1) c ctx w = some r →
      r.2.1 = c ∧ buildCount r.2.2.trace = buildCount w.trace ∧
      sleepCount r.2.2.trace = sleepCount w.trace) := by
  have h : client.getOrBuildChannel R (fuel + 1) c ctx w =
      some ((none, some (fmtErrorf "getOrBuildChannel: %w" ctxErr)), c, w) := by
    simp [client.getOrBuildChannel, hok, client.buildLoop, hdone]
  refine ⟨h, ?_, ?_⟩
  · cases ctxErr <;> simp [fmtErrorf, Error.wraps]
  · intro r hr
    rw [h] at hr
    cases hr
    exact ⟨rfl, rfl, rfl⟩

/-- Witness of C9: a manager without a channel and the done context
`caller 1`. -/
theorem getOrBuildChannel_context_done_witness :
    client.channelOK demoRuntime ⟨none, demoBuilder⟩ ⟨0, []⟩ = false ∧
    (client.getOrBuildChannel demoRuntime 1 ⟨none, demoBuilder⟩ (Context.caller 1)
        ⟨0, []⟩).map (fun r => (r.1, r.2.2.trace)) =
      some ((none, some (Error.wrapped "getOrBuildChannel: %w" (Error.external 9))), []) :=
  ⟨rfl,
    congrArg (Option.map (fun r => (r.1, r.2.2.trace)))
      (getOrBuildChannel_context_done demoRuntime ⟨none, demoBuilder⟩ ⟨0, []⟩
        (Context.caller 1) (Error.external 9) 0 rfl rfl).1⟩

/-- The retry loop with a builder that fails `N` times and then returns
`channel`, under a context that is not done at any of the `N + 1` tests. -/
theorem buildLoop_retries {σ : Type} (R : Runtime σ) (ctx : Context)
    (channel : ClientChannel) :
    ∀ (N count extra : Nat) (c : client σ) (w : World σ),
      (∀ k, k ≤ N → R.Err ctx (attemptEnv R c.builder ctx k count w.env) = none) →
      (∀ k, k < N →
        (c.builder.Build ctx (attemptEnv R c.builder ctx k count w.env)).1.2 ≠ none) →
      (c.builder.Build ctx (attemptEnv R c.builder ctx N count w.env)).1
        = (some channel, none) →
      ∃ w1 : World σ,
        client.buildLoop R ctx (N + 1 + extra) count c w
          = some ((some channel, none), { c with channel := some channel }, w1) ∧
        w1.env = (c.builder.Build ctx (attemptEnv R c.builder ctx N count w.env)).2 ∧
        buildCount w1.trace = buildCount w.trace + (N + 1) ∧
        sleepCount w1.trace = sleepCount w.trace + N ∧
        sendChannels w1.trace = sendChannels w.trace := by
  intro N
  induction N with
  | zero =>
    intro count extra c w hctx _ hsucc
    have h0 : R.Err ctx w.env = none := hctx 0 (Nat.le_refl 0)
    have hb : (c.builder.Build ctx w.env).1 = (some channel, none) := hsucc
    have hb1 : (c.builder.Build ctx w.env).1.1 = some channel := by rw [hb]
    have hb2 : (c.builder.Build ctx w.env).1.2 = none := by rw [hb]
    refine ⟨⟨(c.builder.Build ctx w.env).2, w.trace ++ [Event.Build ctx]⟩, ?_, rfl, ?_, ?_, ?_⟩
    · have hf : 0 + 1 + extra = extra + 1 := by omega
      rw [hf]
      simp [client.buildLoop, h0, client.buildChannel, hb1, hb2]
    · simp [buildCount, List.countP_append]
    · simp [sleepCount, List.countP_append]
    · simp [sendChannels, List.filterMap_append]
  | succ n ih =>
    intro count extra c w hctx hfail hsucc
    have h0 : R.Err ctx w.env = none := hctx 0 (Nat.zero_le _)
    have hb : (c.builder.Build ctx w.env).1.2 ≠ none := hfail 0 (Nat.succ_pos n)
    obtain ⟨err, herr⟩ := Option.ne_none_iff_exists'.mp hb
    obtain ⟨w1, hrun, henv, hbuilds, hsleeps, hsends⟩ :=
      ih (count + 1) extra c
        ⟨R.Sleep (sleepDuration count) (c.builder.Build ctx w.env).2,
          w.trace ++ [Event.Build ctx] ++
            [Event.LogPrintf count (interval count)
              (some (fmtErrorf "getOrBuildChannel: %w" err))] ++
            [Event.Sleep (sleepDuration count)]⟩
        (fun k hk => hctx (k + 1) (Nat.succ_le_succ hk))
        (fun k hk => hfail (k + 1) (Nat.succ_lt_succ hk))
        hsucc
    refine ⟨w1, ?_, henv, ?_, ?_, ?_⟩
    · have hf : n + 1 + 1 + extra = (n + 1 + extra) + 1 := by omega
      rw [hf]
      simp only [client.buildLoop, h0, client.buildChannel, herr]
      exact hrun
    · rw [hbuilds]
      simp [buildCount, List.countP_append]
      omega
    · rw [hsleeps]
      simp [sleepCount, List.countP_append]
      omega
    · rw [hsends]
      simp [sendChannels, List.filterMap_append]

/-- The fast path: with an established channel held, `getOrBuildChannel` returns
it and changes neither manager nor world, whatever the fuel and the context. -/
theorem getOrBuildChannel_fast {σ : Type} (R : Runtime σ) (c : client σ) (w : World σ)
    (ctx : Context) (fuel : Nat) (channel : ClientChannel)
    (hc : c.channel = some channel) (he : R.Established channel w.env = true) :
    client.getOrBuildChannel R fuel c ctx w = some ((some channel, none), c, w) := by
  simp [client.getOrBuildChannel, client.channelOK, hc, he]

/-- Sends issued while the held channel stays established all go to that
channel and never call the builder. -/
theorem sendAll_established {σ : Type} (R : Runtime σ) (channel : ClientChannel)
    (fuel : Nat)
    (hkeep : ∀ ctx msg s, R.Established channel s = true →
      R.Established channel (R.SendMessage channel ctx msg s).2 = true) :
    ∀ (sends : List (Context × MessageRef)) (c : client σ) (w : World σ),
      c.channel = some channel → R.Established channel w.env = true →
      ∃ outs w2, sendAll R fuel sends c w = some (outs, c, w2) ∧
        outs.length = sends.length ∧
        buildCount w2.trace = buildCount w.trace ∧
        sendChannels w2.trace = sendChannels w.trace ++ List.replicate sends.length channel := by
  intro sends
  induction sends with
  | nil =>
    intro c w _ _
    exact ⟨[], w, rfl, rfl, rfl, by simp⟩
  | cons p rest ih =>
    intro c w hc he
    obtain ⟨ctx, msg⟩ := p
    obtain ⟨outs, w2, hrun, hlen, hbuilds, hsends⟩ :=
      ih c ⟨(R.SendMessage channel ctx msg w.env).2,
          w.trace ++ [Event.SendMessage channel ctx msg]⟩ hc (hkeep ctx msg w.env he)
    refine ⟨Outcome.returns (R.SendMessage channel ctx msg w.env).1 :: outs, w2, ?_, ?_, ?_, ?_⟩
    · simp only [sendAll, client.SendMessage, getOrBuildChannel_fast R c w ctx fuel channel hc he]
      rw [hrun]
    · simp [hlen]
    · rw [hbuilds]
      simp [buildCount, List.countP_append]
    · rw [hsends]
      simp [sendChannels, List.filterMap_append, List.replicate_succ]

/-- C10: with a builder that fails `N` times and then returns `channel`, and a
context that is not done at any test, `getOrBuildChannel` on a manager without
an established channel calls the builder `N + 1` times, stores `channel` in the
manager and returns it with a nil error; any later acquisition made while
`channel` is established returns it without a call to the builder; and a caller
that issues a first send and then any further sends, the channel staying
established, has every send delivered on `channel` with `N + 1` builder calls in
total. -/
theorem getOrBuildChannel_single_build {σ : Type} (R : Runtime σ) (c : client σ)
    (w : World σ) (ctx : Context) (channel : ClientChannel) (N extra : Nat)
    (hok : client.channelOK R c w = false)
    (hctx : ∀ k, k ≤ N → R.Err ctx (attemptEnv R c.builder ctx k 0 w.env) = none)
    (hfail : ∀ k, k < N →
      (c.builder.Build ctx (attemptEnv R c.builder ctx k 0 w.env)).1.2 ≠ none)
    (hsucc : (c.builder.Build ctx (attemptEnv R c.builder ctx N 0 w.env)).1
      = (some channel, none)) :
    (∃ w1 : World σ,
      client.getOrBuildChannel R (N + 1 + extra) c ctx w
        = some ((some channel, none), { c with channel := some channel }, w1) ∧
      buildCount w1.trace = buildCount w.trace + (N + 1)) ∧
    (∀ (fuel : Nat) (ctx2 : Context) (w2 : World σ),
      R.Established channel w2.env = true →
      client.getOrBuildChannel R fuel { c with channel := some channel } ctx2 w2
        = some ((some channel, none), { c with channel := some channel }, w2)) ∧
    (∀ (msg : MessageRef) (sends : List (Context × MessageRef)),
      R.Established channel
        (c.builder.Build ctx (attemptEnv R c.builder ctx N 0 w.env)).2 = true →
      (∀ ctx2 msg2 s, R.Established channel s = true →
        R.Established channel (R.SendMessage channel ctx2 msg2 s).2 = true) →
      ∃ outs w3, sendAll R (N + 1 + extra) ((ctx, msg) :: sends) c w
          = some (outs, { c with channel := some channel }, w3) ∧
        outs.length = sends.length + 1 ∧
        buildCount w3.trace = buildCount w.trace + (N + 1) ∧
        sendChannels w3.trace
          = sendChannels w.trace ++ List.replicate (sends.length + 1) channel) := by
  obtain ⟨w1, hloop, henv, hbuilds, _, hsent⟩ :=
    buildLoop_retries R ctx channel N 0 extra c w hctx hfail hsucc
  have hget : client.getOrBuildChannel R (N + 1 + extra) c ctx w
      = some ((some channel, none), { c with channel := some channel }, w1) := by
    simp only [client.getOrBuildChannel, hok]
    exact hloop
  refine ⟨⟨w1, hget, hbuilds⟩, ?_, ?_⟩
  · intro fuel ctx2 w2 he
    exact getOrBuildChannel_fast R _ w2 ctx2 fuel channel rfl he
  · intro msg sends hest hkeep
    have he1 : R.Established channel (R.SendMessage channel ctx msg w1.env).2 = true :=
      hkeep ctx msg w1.env (by rw [henv]; exact hest)
    obtain ⟨outs, w3, hrun, hlen, hb3, hs3⟩ :=
      sendAll_established R channel (N + 1 + extra) hkeep sends
        { c with channel := some channel }
        ⟨(R.SendMessage channel ctx msg w1.env).2,
          w1.trace ++ [Event.SendMessage channel ctx msg]⟩ rfl he1
    refine ⟨Outcome.returns (R.SendMessage channel ctx msg w1.env).1 :: outs, w3, ?_, ?_, ?_, ?_⟩
    · simp only [sendAll, client.SendMessage, hget]
      rw [hrun]
    · simp [hlen]
    · rw [hb3]
      simp [buildCount, List.countP_append] at hbuilds ⊢
      omega
    · rw [hs3]
      simp [sendChannels, List.filterMap_append, List.replicate_succ] at hsent ⊢
      rw [hsent]

/-- Witness of C10: `demoBuilder` fails twice and then hands out channel `7`;
three sends on a fresh manager make three builder calls and all go to channel
`7`. -/
theorem getOrBuildChannel_single_build_witness :
    (∃ w1 : World Nat,
      client.getOrBuildChannel demoRuntime 3 ⟨none, demoBuilder⟩ (Context.caller 0) ⟨0, []⟩
        = some ((some ⟨7⟩, none), ⟨some ⟨7⟩, demoBuilder⟩, w1) ∧
      buildCount w1.trace = 3) ∧
    (∃ outs w3,
      sendAll demoRuntime 3
          [(Context.caller 0, some 1), (Context.caller 0, some 2), (Context.caller 1, some 3)]
          ⟨none, demoBuilder⟩ ⟨0, []⟩
        = some (outs, ⟨some ⟨7⟩, demoBuilder⟩, w3) ∧
      outs.length = 3 ∧ buildCount w3.trace = 3 ∧ sendChannels w3.trace = [⟨7⟩, ⟨7⟩, ⟨7⟩]) ∧
    (sendAll demoRuntime 3
        [(Context.caller 0, some 1), (Context.caller 0, some 2), (Context.caller 1, some 3)]
        ⟨none, demoBuilder⟩ ⟨0, []⟩).map
      (fun r => (r.1, r.2.1.channel, buildCount r.2.2.trace, sendChannels r.2.2.trace))
      = some ([Outcome.returns none, Outcome.returns none, Outcome.returns none],
          some ⟨7⟩, 3, [⟨7⟩, ⟨7⟩, ⟨7⟩]) :=
  have h := getOrBuildChannel_single_build demoRuntime ⟨none, demoBuilder⟩ ⟨0, []⟩
      (Context.caller 0) ⟨7⟩ 2 0 rfl
      (by intro k _; rfl)
      (by
        intro k hk
        have h2 : k = 0 ∨ k = 1 := by omega
        rcases h2 with h | h <;> subst h <;> decide)
      rfl
  ⟨h.1,
    h.2.2 (some 1) [(Context.caller 0, some 2), (Context.caller 1, some 3)] rfl
      (fun _ _ _ he => he),
    by decide⟩

/-- The first `N` rounds of the retry loop when each of them finds the context
not done and gets no channel out of `buildChannel`: the loop goes on with
`count + N`, having called the builder `N` times and slept
`sleepDuration count`, …, `sleepDuration (count + N - 1)` in that order; the
manager is untouched when every one of these builds returned an error. -/
theorem buildLoop_failed_attempts {σ : Type} (R : Runtime σ) (ctx : Context) :
    ∀ (N count : Nat) (c : client σ) (w : World σ),
      (∀ k, k < N → R.Err ctx (attemptEnv R c.builder ctx k count w.env) = none) →
      (∀ k, k < N →
        (c.builder.Build ctx (attemptEnv R c.builder ctx k count w.env)).1.2 ≠ none ∨
        (c.builder.Build ctx (attemptEnv R c.builder ctx k count w.env)).1.1 = none) →
      ∃ (c1 : client σ) (w1 : World σ),
        (∀ fuel, client.buildLoop R ctx (N + fuel) count c w
          = client.buildLoop R ctx fuel (count + N) c1 w1) ∧
        c1.builder = c.builder ∧
        ((∀ k, k < N →
          (c.builder.Build ctx (attemptEnv R c.builder ctx k count w.env)).1.2 ≠ none) →
            c1 = c) ∧
        w1.env = attemptEnv R c.builder ctx N count w.env ∧
        buildCount w1.trace = buildCount w.trace + N ∧
        sleepCount w1.trace = sleepCount w.trace + N ∧
        sleepDurations w1.trace
          = sleepDurations w.trace ++ (List.range' count N).map sleepDuration := by
  intro N
  induction N with
  | zero =>
    intro count c w _ _
    exact ⟨c, w, fun fuel => by rw [Nat.zero_add, Nat.add_zero], rfl, fun _ => rfl, rfl,
      rfl, rfl, by simp⟩
  | succ n ih =>
    intro count c w hctx hfail
    have h0 : R.Err ctx w.env = none := hctx 0 (Nat.succ_pos n)
    have hf0 := hfail 0 (Nat.succ_pos n)
    have hstep : ∀ fuel, n + 1 + fuel = (n + fuel) + 1 := fun fuel => by omega
    have hcount : count + 1 + n = count + (n + 1) := by omega
    cases herr : (c.builder.Build ctx w.env).1.2 with
    | some err =>
      obtain ⟨c1, w1, hrun, hb, hsame, henv, hbuilds, hsleeps, hdur⟩ :=
        ih (count + 1) c
          ⟨R.Sleep (sleepDuration count) (c.builder.Build ctx w.env).2,
            w.trace ++ [Event.Build ctx] ++
              [Event.LogPrintf count (interval count)
                (some (fmtErrorf "getOrBuildChannel: %w" err))] ++
              [Event.Sleep (sleepDuration count)]⟩
          (fun k hk => hctx (k + 1) (Nat.succ_lt_succ hk))
          (fun k hk => hfail (k + 1) (Nat.succ_lt_succ hk))
      refine ⟨c1, w1, ?_, hb, ?_, henv, ?_, ?_, ?_⟩
      · intro fuel
        rw [hstep fuel, ← hcount, ← hrun fuel]
        simp only [client.buildLoop, h0, client.buildChannel, herr]
      · intro hall
        exact hsame (fun k hk => hall (k + 1) (Nat.succ_lt_succ hk))
      · rw [hbuilds]
        simp [buildCount, List.countP_append]
        omega
      · rw [hsleeps]
        simp [sleepCount, List.countP_append]
        omega
      · rw [hdur]
        simp [sleepDurations, List.filterMap_append, List.range'_succ]
    | none =>
      have hnil : (c.builder.Build ctx w.env).1.1 = none := by
        rcases hf0 with h | h
        · exact absurd herr h
        · exact h
      obtain ⟨c1, w1, hrun, hb, _, henv, hbuilds, hsleeps, hdur⟩ :=
        ih (count + 1) { c with channel := none }
          ⟨R.Sleep (sleepDuration count) (c.builder.Build ctx w.env).2,
            w.trace ++ [Event.Build ctx] ++
              [Event.LogPrintf count (interval count) none] ++
              [Event.Sleep (sleepDuration count)]⟩
          (fun k hk => hctx (k + 1) (Nat.succ_lt_succ hk))
          (fun k hk => hfail (k + 1) (Nat.succ_lt_succ hk))
      refine ⟨c1, w1, ?_, hb, ?_, henv, ?_, ?_, ?_⟩
      · intro fuel
        rw [hstep fuel, ← hcount, ← hrun fuel]
        simp only [client.buildLoop, h0, client.buildChannel, herr, hnil]
      · intro hall
        exact absurd herr (hall 0 (Nat.succ_pos n))
      · rw [hbuilds]
        simp [buildCount, List.countP_append]
        omega
      · rw [hsleeps]
        simp [sleepCount, List.countP_append]
        omega
      · rw [hdur]
        simp [sleepDurations, List.filterMap_append, List.range'_succ]

/-- A natural number below `2 ^ 53` is a `float64`. -/
theorem roundFloat64_small (n : Nat) (h : n < 2 ^ 53) : roundFloat64 n = n := by
  have hs : ∀ fuel, float64Shift (fuel + 1) n = 0 := by
    intro fuel
    simp only [float64Shift, h, if_true]
  have hs1 : float64Shift 1024 n = 0 := hs 1023
  simp [roundFloat64, hs1, Nat.mod_one]

/-- While `count ^ 2 * 100` milliseconds fit an `int64` count of nanoseconds, the
argument of `time.Sleep` is that many milliseconds. -/
theorem sleepDuration_in_range (n : Nat) (h : n ≤ 303700) :
    sleepDuration n = ((n ^ 2 * 100 : Nat) : Int) * Millisecond := by
  have h2 : n ^ 2 ≤ 303700 ^ 2 := Nat.pow_le_pow_left h 2
  have hc : float64Count n = n := by
    unfold float64Count
    exact Nat.min_eq_left (by omega)
  have hr1 : roundFloat64 (n ^ 2) = n ^ 2 := roundFloat64_small _ (by omega)
  have hr2 : roundFloat64 (n ^ 2 * 100) = n ^ 2 * 100 := roundFloat64_small _ (by omega)
  have hlt : n ^ 2 * 100 < 2 ^ 63 := by omega
  have hi : interval n = ((n ^ 2 * 100 : Nat) : Int) := by
    simp only [interval, hc, hr1, hr2, hlt, if_true]
  rw [sleepDuration, hi]
  unfold wrapInt64 Millisecond
  have h3 : (0 : Int) ≤ ((n ^ 2 * 100 : Nat) : Int) := Int.ofNat_nonneg _
  have h4 : ((n ^ 2 * 100 : Nat) : Int) ≤ 9223369000000 := by
    have : n ^ 2 * 100 ≤ 9223369000000 := by omega
    exact_mod_cast this
  rw [Int.emod_eq_of_lt (by omega) (by omega)]
  omega

/-- A round of the loop that finds the context done ends the call there. -/
theorem buildLoop_done {σ : Type} (R : Runtime σ) (ctx : Context) (fuel count : Nat)
    (c : client σ) (w : World σ) (ctxErr : Error) (hdone : R.Err ctx w.env = some ctxErr) :
    client.buildLoop R ctx (fuel + 1) count c w
      = some ((none, some (fmtErrorf "getOrBuildChannel: %w" ctxErr)), c, w) := by
  simp [client.buildLoop, hdone]

/-- The `int64` product `interval * time.Millisecond` leaves the range of
`int64` in round 303701, a round that starts only after the sleeps of all
earlier rounds. -/
theorem sleepDuration_wraps_at_303701 :
    sleepDuration 303699 = 9223308260100000000 ∧
    sleepDuration 303700 = 9223369000000000000 ∧
    sleepDuration 303701 = -9223314333609551616 := by
  decide

/-- The state in which attempt `a + b` starts is reached from the one in which
attempt `a` starts by `b` more rounds. -/
theorem attemptEnv_add {σ : Type} (R : Runtime σ) (B : ClientBuilder σ) (ctx : Context) :
    ∀ (a b count : Nat) (s : σ),
      attemptEnv R B ctx (a + b) count s
        = attemptEnv R B ctx b (count + a) (attemptEnv R B ctx a count s) := by
  intro a
  induction a with
  | zero =>
    intro b count s
    simp [attemptEnv]
  | succ n ih =>
    intro b count s
    have h1 : n + 1 + b = (n + b) + 1 := by omega
    have h2 : count + (n + 1) = count + 1 + n := by omega
    rw [h1, h2]
    simp only [attemptEnv]
    exact ih b (count + 1) _

/-- With a clock that neither `Build` nor `time.Sleep` turns back, the rounds
of the loop do not turn it back. -/
theorem attemptEnv_clock_mono {σ : Type} (R : Runtime σ) (B : ClientBuilder σ)
    (ctx : Context) (now : σ → Int)
    (hsleep : ∀ d s, now s ≤ now (R.Sleep d s))
    (hbuild : ∀ s, now s ≤ now (B.Build ctx s).2) :
    ∀ (k count : Nat) (s : σ), now s ≤ now (attemptEnv R B ctx k count s) := by
  intro k
  induction k with
  | zero =>
    intro count s
    exact Int.le_refl _
  | succ n ih =>
    intro count s
    simp only [attemptEnv]
    exact Int.le_trans (Int.le_trans (hbuild s) (hsleep _ _)) (ih (count + 1) _)

/-- With a clock on which `time.Sleep d` takes at least `d`, a call that gets
past the rounds `a` and `a + 1` has lasted at least their two delays. -/
theorem attemptEnv_elapsed {σ : Type} (R : Runtime σ) (B : ClientBuilder σ)
    (ctx : Context) (now : σ → Int)
    (hsleep : ∀ d s, now s ≤ now (R.Sleep d s) ∧ now s + d ≤ now (R.Sleep d s))
    (hbuild : ∀ s, now s ≤ now (B.Build ctx s).2) (a rest : Nat) (s : σ) :
    now s + sleepDuration a + sleepDuration (a + 1)
      ≤ now (attemptEnv R B ctx (a + (1 + (1 + rest))) 0 s) := by
  have hmono := attemptEnv_clock_mono R B ctx now (fun d s => (hsleep d s).1) hbuild
  have hstep : ∀ (count : Nat) (t : σ),
      now t + sleepDuration count ≤ now (attemptEnv R B ctx 1 count t) := by
    intro count t
    simp only [attemptEnv]
    have h1 := hbuild t
    have h2 := (hsleep (sleepDuration count) (B.Build ctx t).2).2
    omega
  rw [attemptEnv_add R B ctx a (1 + (1 + rest)) 0 s,
    attemptEnv_add R B ctx 1 (1 + rest) (0 + a) _,
    attemptEnv_add R B ctx 1 rest (0 + a + 1) _, Nat.zero_add]
  have h0 := hmono a 0 s
  have h1 := hstep a (attemptEnv R B ctx a 0 s)
  have h2 := hstep (a + 1) (attemptEnv R B ctx 1 a (attemptEnv R B ctx a 0 s))
  have h3 := hmono rest (a + 1 + 1)
    (attemptEnv R B ctx 1 (a + 1) (attemptEnv R B ctx 1 a (attemptEnv R B ctx a 0 s)))
  omega

/-- C11: in a call of `getOrBuildChannel` whose first `N` attempts fail, on a
clock on which `time.Sleep d` takes at least `d` and which has advanced by less
than `2 ^ 63` nanoseconds (the range of `time.Duration`) when the last of
these sleeps ends, the delays slept are, in this order, `n ^ 2 * 100`
milliseconds for `n = 0, …, N - 1`; the first delay is zero and the delays are
non-decreasing. -/
theorem getOrBuildChannel_backoff_schedule {σ : Type} (R : Runtime σ) (now : σ → Int)
    (c : client σ) (w : World σ) (ctx : Context) (N extra : Nat)
    (hsleep : ∀ d s, now s ≤ now (R.Sleep d s) ∧ now s + d ≤ now (R.Sleep d s))
    (hbuild : ∀ s, now s ≤ now (c.builder.Build ctx s).2)
    (helapsed : now (attemptEnv R c.builder ctx N 0 w.env) < now w.env + 2 ^ 63)
    (hok : client.channelOK R c w = false)
    (hctx : ∀ k, k < N → R.Err ctx (attemptEnv R c.builder ctx k 0 w.env) = none)
    (hfail : ∀ k, k < N →
      (c.builder.Build ctx (attemptEnv R c.builder ctx k 0 w.env)).1.2 ≠ none ∨
      (c.builder.Build ctx (attemptEnv R c.builder ctx k 0 w.env)).1.1 = none)
    (hend : R.Err ctx (attemptEnv R c.builder ctx N 0 w.env) ≠ none ∨
      ((c.builder.Build ctx (attemptEnv R c.builder ctx N 0 w.env)).1.2 = none ∧
        (c.builder.Build ctx (attemptEnv R c.builder ctx N 0 w.env)).1.1 ≠ none)) :
    (∃ r, client.getOrBuildChannel R (N + 1 + extra) c ctx w = some r ∧
      sleepDurations r.2.2.trace
        = sleepDurations w.trace ++
          (List.range N).map (fun n => ((n ^ 2 * 100 : Nat) : Int) * Millisecond)) ∧
    (∀ n, n < N → sleepDuration n = ((n ^ 2 * 100 : Nat) : Int) * Millisecond) ∧
    sleepDuration 0 = 0 ∧
    (∀ m n, m ≤ n → n < N → sleepDuration m ≤ sleepDuration n) := by
  have hN : N ≤ 303700 := by
    by_contra hgt
    obtain ⟨rest, hrest⟩ : ∃ rest, N = 303699 + (1 + (1 + rest)) :=
      ⟨N - 303701, by omega⟩
    have hel := attemptEnv_elapsed R c.builder ctx now hsleep hbuild 303699 rest w.env
    rw [← hrest] at hel
    have h1 : sleepDuration 303699 = 9223308260100000000 := sleepDuration_wraps_at_303701.1
    have h2 : sleepDuration (303699 + 1) = 9223369000000000000 :=
      sleepDuration_wraps_at_303701.2.1
    rw [h1, h2] at hel
    have h3 : (2 : Int) ^ 63 = 9223372036854775808 := by norm_num
    rw [h3] at helapsed
    omega
  have hexact : ∀ n, n < N → sleepDuration n = ((n ^ 2 * 100 : Nat) : Int) * Millisecond :=
    fun n hn => sleepDuration_in_range n (by omega)
  refine ⟨?_, hexact, by decide, ?_⟩
  · obtain ⟨c1, w1, hrun, hb, _, henv, _, _, hdur⟩ :=
      buildLoop_failed_attempts R ctx N 0 c w hctx hfail
    have hget : client.getOrBuildChannel R (N + 1 + extra) c ctx w
        = client.buildLoop R ctx (extra + 1) (0 + N) c1 w1 := by
      simp only [client.getOrBuildChannel, hok]
      have hf : N + 1 + extra = N + (extra + 1) := by omega
      rw [hf, hrun (extra + 1)]
      simp
    have hmap : (List.range N).map (fun n => ((n ^ 2 * 100 : Nat) : Int) * Millisecond)
        = (List.range' 0 N).map sleepDuration := by
      rw [← List.range_eq_range']
      exact List.map_congr_left (fun n hn => (hexact n (List.mem_range.mp hn)).symm)
    rw [hmap, ← hdur]
    cases hctxN : R.Err ctx w1.env with
    | some ctxErr =>
      exact ⟨_, by rw [hget]; exact buildLoop_done R ctx extra (0 + N) c1 w1 ctxErr hctxN, rfl⟩
    | none =>
      rw [henv] at hctxN
      rcases hend with hd | ⟨he, hch⟩
      · exact absurd hctxN hd
      · obtain ⟨channel, hsome⟩ := Option.ne_none_iff_exists'.mp hch
        rw [← henv] at hctxN he hsome
        refine ⟨((some channel, none), { c1 with channel := some channel },
          ⟨(c1.builder.Build ctx w1.env).2, w1.trace ++ [Event.Build ctx]⟩), ?_, ?_⟩
        · rw [hget]
          simp [client.buildLoop, hctxN, client.buildChannel, hb, he, hsome]
        · simp [sleepDurations, List.filterMap_append]
  · intro m n hmn hn
    rw [hexact n hn, hexact m (by omega)]
    have h2 : m ^ 2 ≤ n ^ 2 := Nat.pow_le_pow_left hmn 2
    have h3 : ((m ^ 2 * 100 : Nat) : Int) ≤ ((n ^ 2 * 100 : Nat) : Int) := by
      exact_mod_cast Nat.mul_le_mul_right 100 h2
    unfold Millisecond
    omega

/-- Witness of C11: on `clockRuntime` the builder fails twice, so the call
sleeps 0 and then 100 milliseconds before its third attempt succeeds, 100
milliseconds after the start. -/
theorem getOrBuildChannel_backoff_schedule_witness :
    (∃ r, client.getOrBuildChannel clockRuntime 3 ⟨none, clockBuilder⟩ (Context.caller 0)
        ⟨(0, 0), []⟩ = some r ∧
      sleepDurations r.2.2.trace = [0, 100000000]) ∧
    sleepDuration 1 = 100 * Millisecond :=
  have h := getOrBuildChannel_backoff_schedule clockRuntime Prod.snd
      ⟨none, clockBuilder⟩ ⟨(0, 0), []⟩ (Context.caller 0) 2 0
      (by
        intro d s
        show s.2 ≤ (if d < 0 then s.2 else s.2 + d) ∧
          s.2 + d ≤ (if d < 0 then s.2 else s.2 + d)
        split_ifs <;> constructor <;> omega)
      (by
        intro s
        by_cases h : s.1 < 2 <;> simp [clockBuilder, h])
      (by decide)
      rfl
      (by intro k _; rfl)
      (by
        intro k hk
        have h2 : k = 0 ∨ k = 1 := by omega
        rcases h2 with h | h <;> subst h <;> decide)
      (Or.inr (by decide))
  ⟨h.1, h.2.1 1 (by decide)⟩

/-- What the retry loop can return: a channel with a nil error, or the nil
channel with the wrapped error of the context, which is done in the final
state. -/
theorem buildLoop_result_shape {σ : Type} (R : Runtime σ) (ctx : Context) :
    ∀ (fuel count : Nat) (c : client σ) (w : World σ)
      (r : (Option ClientChannel × Option Error) × client σ × World σ),
      client.buildLoop R ctx fuel count c w = some r →
      (∃ channel, r.1 = (some channel, none)) ∨
      (∃ ctxErr, r.1 = (none, some (fmtErrorf "getOrBuildChannel: %w" ctxErr)) ∧
        R.Err ctx r.2.2.env = some ctxErr) := by
  intro fuel
  induction fuel with
  | zero =>
    intro count c w r h
    simp [client.buildLoop] at h
  | succ n ih =>
    intro count c w r h
    unfold client.buildLoop at h
    cases hctx : R.Err ctx w.env with
    | some ctxErr =>
      simp only [hctx] at h
      cases h
      exact Or.inr ⟨ctxErr, rfl, hctx⟩
    | none =>
      simp only [hctx] at h
      cases hb : (client.buildChannel c ctx w).1.1 with
      | some channel =>
        simp only [hb] at h
        cases h
        exact Or.inl ⟨channel, rfl⟩
      | none =>
        simp only [hb] at h
        exact ih _ _ _ r h

/-- C12: whenever `getOrBuildChannel` returns, it returns either a non-nil
channel with a nil error or the nil channel with a non-nil error that wraps the
error of the context; it does not return a nil channel with a nil error,
whatever the builder returns. -/
theorem getOrBuildChannel_result_shape {σ : Type} (R : Runtime σ) (fuel : Nat)
    (c : client σ) (ctx : Context) (w : World σ)
    (r : (Option ClientChannel × Option Error) × client σ × World σ)
    (h : client.getOrBuildChannel R fuel c ctx w = some r) :
    ((∃ channel, r.1 = (some channel, none)) ∨
      (∃ ctxErr, r.1 = (none, some (fmtErrorf "getOrBuildChannel: %w" ctxErr)) ∧
        R.Err ctx r.2.2.env = some ctxErr ∧
        Error.wraps (fmtErrorf "getOrBuildChannel: %w" ctxErr) ctxErr = true)) ∧
    r.1 ≠ (none, none) := by
  have hshape : (∃ channel, r.1 = (some channel, none)) ∨
      (∃ ctxErr, r.1 = (none, some (fmtErrorf "getOrBuildChannel: %w" ctxErr)) ∧
        R.Err ctx r.2.2.env = some ctxErr) := by
    unfold client.getOrBuildChannel at h
    cases hok : client.channelOK R c w with
    | true =>
      simp only [hok, if_true] at h
      cases h
      cases hc : c.channel with
      | none => simp [client.channelOK, hc] at hok
      | some channel => exact Or.inl ⟨channel, rfl⟩
    | false =>
      simp only [hok] at h
      exact buildLoop_result_shape R ctx fuel 0 c w r h
  rcases hshape with ⟨channel, hch⟩ | ⟨ctxErr, he, hdone⟩
  · exact ⟨Or.inl ⟨channel, hch⟩, by rw [hch]; simp⟩
  · refine ⟨Or.inr ⟨ctxErr, he, hdone, ?_⟩, by rw [he]; simp⟩
    cases ctxErr <;> simp [fmtErrorf, Error.wraps]

/-- Witness of C12: under the done context `caller 1` the call returns the nil
channel with the wrapped error of the context. -/
theorem getOrBuildChannel_result_shape_witness :
    ((∃ channel, ((none, some (Error.wrapped "getOrBuildChannel: %w" (Error.external 9))) :
        Option ClientChannel × Option Error) = (some channel, none)) ∨
      (∃ ctxErr, ((none, some (Error.wrapped "getOrBuildChannel: %w" (Error.external 9))) :
          Option ClientChannel × Option Error)
            = (none, some (fmtErrorf "getOrBuildChannel: %w" ctxErr)) ∧
        demoRuntime.Err (Context.caller 1) 0 = some ctxErr ∧
        Error.wraps (fmtErrorf "getOrBuildChannel: %w" ctxErr) ctxErr = true)) ∧
    ((none, some (Error.wrapped "getOrBuildChannel: %w" (Error.external 9))) :
        Option ClientChannel × Option Error) ≠ (none, none) :=
  getOrBuildChannel_result_shape demoRuntime 1 ⟨none, demoBuilder⟩ (Context.caller 1) ⟨0, []⟩
    ((none, some (Error.wrapped "getOrBuildChannel: %w" (Error.external 9))),
      ⟨none, demoBuilder⟩, ⟨0, []⟩) rfl

/-- C13: when the manager holds a channel that reports itself established,
`getOrBuildChannel` returns that channel with a nil error for every context and
every fuel; manager and world are unchanged, so the builder is not called and
nothing sleeps. -/
theorem getOrBuildChannel_fast_path {σ : Type} (R : Runtime σ) (c : client σ)
    (w : World σ) (ctx : Context) (fuel : Nat) (channel : ClientChannel)
    (hc : c.channel = some channel) (he : R.Established channel w.env = true) :
    client.getOrBuildChannel R fuel c ctx w = some ((some channel, none), c, w) ∧
    (∀ r, client.getOrBuildChannel R fuel c ctx w = some r →
      r.1 = (some channel, none) ∧ r.2.1.channel = c.channel ∧
      buildCount r.2.2.trace = buildCount w.trace ∧
      sleepCount r.2.2.trace = sleepCount w.trace) := by
  have h := getOrBuildChannel_fast R c w ctx fuel channel hc he
  refine ⟨h, ?_⟩
  intro r hr
  rw [h] at hr
  cases hr
  exact ⟨rfl, rfl, rfl, rfl⟩

/-- Witness of C13: a manager holding the established channel `7`, asked under
the done context `caller 1` with no fuel. -/
theorem getOrBuildChannel_fast_path_witness :
    (client.getOrBuildChannel demoRuntime 0 ⟨some ⟨7⟩, demoBuilder⟩ (Context.caller 1)
        ⟨0, []⟩).map (fun r => (r.1, r.2.1.channel, r.2.2.trace))
      = some ((some ⟨7⟩, none), some ⟨7⟩, []) :=
  congrArg (Option.map (fun r => (r.1, r.2.1.channel, r.2.2.trace)))
    (getOrBuildChannel_fast_path demoRuntime ⟨some ⟨7⟩, demoBuilder⟩ ⟨0, []⟩
      (Context.caller 1) 0 ⟨7⟩ rfl rfl).1

/-- C14: when the acquisition returns an error, `SendMessage` returns that error
and the world is the one the acquisition left, so the channel's `SendMessage` is
not called; when the acquisition returns a channel, the channel's `SendMessage`
is called once, with the caller's context and message, and its result is what
`SendMessage` returns. -/
theorem SendMessage_surfaces_unmodified {σ : Type} (R : Runtime σ) (fuel : Nat)
    (c : client σ) (ctx : Context) (msg : MessageRef) (w : World σ)
    (acq : (Option ClientChannel × Option Error) × client σ × World σ)
    (hacq : client.getOrBuildChannel R fuel c ctx w = some acq) :
    (∀ err, acq.1.2 = some err →
      client.SendMessage R fuel c ctx msg w
        = some (Outcome.returns (some err), acq.2.1, acq.2.2) ∧
      (∀ s, client.SendMessage R fuel c ctx msg w = some s →
        sendChannels s.2.2.trace = sendChannels acq.2.2.trace)) ∧
    (∀ channel, acq.1 = (some channel, none) →
      client.SendMessage R fuel c ctx msg w
        = some (Outcome.returns (R.SendMessage channel ctx msg acq.2.2.env).1, acq.2.1,
            ⟨(R.SendMessage channel ctx msg acq.2.2.env).2,
              acq.2.2.trace ++ [Event.SendMessage channel ctx msg]⟩) ∧
      (∀ s, client.SendMessage R fuel c ctx msg w = some s →
        s.2.2.trace = acq.2.2.trace ++ [Event.SendMessage channel ctx msg] ∧
        sendChannels s.2.2.trace = sendChannels acq.2.2.trace ++ [channel])) := by
  obtain ⟨⟨ch, e⟩, c1, w1⟩ := acq
  constructor
  · intro err herr
    simp only at herr
    subst herr
    have h : client.SendMessage R fuel c ctx msg w
        = some (Outcome.returns (some err), c1, w1) := by
      simp [client.SendMessage, hacq]
    refine ⟨h, ?_⟩
    intro s hs
    rw [h] at hs
    cases hs
    rfl
  · intro channel hch
    simp only [Prod.mk.injEq] at hch
    obtain ⟨h1, h2⟩ := hch
    subst h1
    subst h2
    have h : client.SendMessage R fuel c ctx msg w
        = some (Outcome.returns (R.SendMessage channel ctx msg w1.env).1, c1,
            ⟨(R.SendMessage channel ctx msg w1.env).2,
              w1.trace ++ [Event.SendMessage channel ctx msg]⟩) := by
      simp [client.SendMessage, hacq]
    refine ⟨h, ?_⟩
    intro s hs
    rw [h] at hs
    cases hs
    exact ⟨rfl, by simp [sendChannels, List.filterMap_append]⟩

/-- Witness of C14: under the done context `caller 1` a manager without a
channel gets the acquisition error back from `SendMessage`, and a manager
holding the established channel `7` has its message sent once on that
channel. -/
theorem SendMessage_surfaces_unmodified_witness :
    (client.SendMessage demoRuntime 1 ⟨none, demoBuilder⟩ (Context.caller 1) (some 4)
        ⟨0, []⟩).map (fun s => (s.1, s.2.2.trace))
      = some (Outcome.returns
          (some (Error.wrapped "getOrBuildChannel: %w" (Error.external 9))), []) ∧
    (client.SendMessage demoRuntime 1 ⟨some ⟨7⟩, demoBuilder⟩ (Context.caller 0) (some 4)
        ⟨0, []⟩).map (fun s => (s.1, s.2.2.trace))
      = some (Outcome.returns none, [Event.SendMessage ⟨7⟩ (Context.caller 0) (some 4)]) :=
  ⟨congrArg (Option.map (fun s => (s.1, s.2.2.trace)))
      ((SendMessage_surfaces_unmodified demoRuntime 1 ⟨none, demoBuilder⟩ (Context.caller 1)
        (some 4) ⟨0, []⟩
        ((none, some (Error.wrapped "getOrBuildChannel: %w" (Error.external 9))),
          ⟨none, demoBuilder⟩, ⟨0, []⟩) rfl).1
        (Error.wrapped "getOrBuildChannel: %w" (Error.external 9)) rfl).1,
    congrArg (Option.map (fun s => (s.1, s.2.2.trace)))
      ((SendMessage_surfaces_unmodified demoRuntime 1 ⟨some ⟨7⟩, demoBuilder⟩
        (Context.caller 0) (some 4) ⟨0, []⟩
        ((some ⟨7⟩, none), ⟨some ⟨7⟩, demoBuilder⟩, ⟨0, []⟩) rfl).2 ⟨7⟩ rfl).1⟩

/-- C15, the code at the failing input: `SendNotification`, `SendCommand` and
`ProcessCommand` end in the panic "implement me" instead of returning. -/
theorem unimplemented_operations_panic :
    (client.SendNotification (⟨some ⟨7⟩, demoBuilder⟩ : client Nat) (Context.caller 0)
        (some 1) ⟨0, []⟩).1 = Outcome.panics "implement me" ∧
    (client.SendCommand (⟨some ⟨7⟩, demoBuilder⟩ : client Nat) (Context.caller 0)
        (some 1) ⟨0, []⟩).1 = Outcome.panics "implement me" ∧
    (client.ProcessCommand (⟨some ⟨7⟩, demoBuilder⟩ : client Nat) (Context.caller 0)
        (some 1) ⟨0, []⟩).1 = Outcome.panics "implement me" := by
  decide

/-- C16: for every payload, `UnmarshalJSONMap` goes on with the kind Session
whenever `state` is present, whatever other keys are; with Message when
`content` is present and `state` is not; with Notification when `event` is
present and neither `content` nor `state` is; with Command when `method` is
present and none of the three is; and a returned envelope is a Command only
when `method` is present and none of `event`, `content`, `state` is. -/
theorem UnmarshalJSONMap_later_key_overwrites {β : Type} (J : JSONCodec β) (m : JSONMap) :
    (hasKey m "state" = true →
      UnmarshalJSONMap J m = decodeAs J m EnvelopeKind.Session) ∧
    (hasKey m "content" = true → hasKey m "state" = false →
      UnmarshalJSONMap J m = decodeAs J m EnvelopeKind.Message) ∧
    (hasKey m "event" = true → hasKey m "content" = false → hasKey m "state" = false →
      UnmarshalJSONMap J m = decodeAs J m EnvelopeKind.Notification) ∧
    (hasKey m "method" = true → hasKey m "event" = false → hasKey m "content" = false →
      hasKey m "state" = false →
      UnmarshalJSONMap J m = decodeAs J m EnvelopeKind.Command) ∧
    ((UnmarshalJSONMap J m).1.map (fun e => e.kind) = some EnvelopeKind.Command →
      (hasKey m "method" = true ∧ hasKey m "event" = false ∧
        hasKey m "content" = false ∧ hasKey m "state" = false)) := by
  unfold UnmarshalJSONMap decodeAs
  cases h1 : hasKey m "method" <;> cases h2 : hasKey m "event" <;>
    cases h3 : hasKey m "content" <;> cases h4 : hasKey m "state" <;>
    simp <;> cases J.Marshal m <;> simp

/-- Witness of C16: a payload holding all four keys decodes to a Session, and
when `json.Marshal` fails on it the nil envelope comes back with that error. -/
theorem UnmarshalJSONMap_later_key_overwrites_witness :
    UnmarshalJSONMap unitCodec
        [("method", some ⟨[49]⟩), ("event", some ⟨[50]⟩), ("content", some ⟨[51]⟩),
          ("state", some ⟨[52]⟩)] = (some ⟨EnvelopeKind.Session, ()⟩, none) ∧
    UnmarshalJSONMap failingCodec
        [("method", some ⟨[49]⟩), ("event", some ⟨[50]⟩), ("content", some ⟨[51]⟩),
          ("state", some ⟨[123, 98, 97, 100]⟩)]
      = (none, some (Error.json "invalid character")) :=
  ⟨(UnmarshalJSONMap_later_key_overwrites unitCodec
      [("method", some ⟨[49]⟩), ("event", some ⟨[50]⟩), ("content", some ⟨[51]⟩),
        ("state", some ⟨[52]⟩)]).1 (by decide),
    (UnmarshalJSONMap_later_key_overwrites failingCodec
      [("method", some ⟨[49]⟩), ("event", some ⟨[50]⟩), ("content", some ⟨[51]⟩),
        ("state", some ⟨[123, 98, 97, 100]⟩)]).1 (by decide)⟩

/-- C17: a build that returns an error leaves the manager as it was; hence a
call of `getOrBuildChannel` whose `N` build attempts all return an error, and
which then finds the context done, returns with the manager unchanged, and when
it went through the loop it returns the nil channel with the wrapped error of
the context after `N` calls to the builder. -/
theorem getOrBuildChannel_failed_builds_keep_channel {σ : Type} (R : Runtime σ)
    (c : client σ) (w : World σ) (ctx : Context) (N extra : Nat) (ctxErr : Error)
    (hctx : ∀ k, k < N → R.Err ctx (attemptEnv R c.builder ctx k 0 w.env) = none)
    (hfail : ∀ k, k < N →
      (c.builder.Build ctx (attemptEnv R c.builder ctx k 0 w.env)).1.2 ≠ none)
    (hdone : R.Err ctx (attemptEnv R c.builder ctx N 0 w.env) = some ctxErr) :
    (∃ r, client.getOrBuildChannel R (N + 1 + extra) c ctx w = some r ∧
      r.2.1 = c ∧
      (client.channelOK R c w = false →
        r.1 = (none, some (fmtErrorf "getOrBuildChannel: %w" ctxErr)) ∧
        buildCount r.2.2.trace = buildCount w.trace + N)) ∧
    (∀ (c2 : client σ) (ctx2 : Context) (w2 : World σ),
      (c2.builder.Build ctx2 w2.env).1.2 ≠ none →
        (client.buildChannel c2 ctx2 w2).2.1 = c2 ∧
        (client.buildChannel c2 ctx2 w2).1.1 = none) := by
  constructor
  · cases hok : client.channelOK R c w with
    | true =>
      exact ⟨((c.channel, none), c, w), by simp [client.getOrBuildChannel, hok], rfl,
        fun h => by simp at h⟩
    | false =>
      obtain ⟨c1, w1, hrun, _, hsame, henv, hbuilds, _, _⟩ :=
        buildLoop_failed_attempts R ctx N 0 c w hctx (fun k hk => Or.inl (hfail k hk))
      have hc1 : c1 = c := hsame hfail
      subst hc1
      have hget : client.getOrBuildChannel R (N + 1 + extra) c1 ctx w
          = some ((none, some (fmtErrorf "getOrBuildChannel: %w" ctxErr)), c1, w1) := by
        simp only [client.getOrBuildChannel, hok]
        have hf : N + 1 + extra = N + (extra + 1) := by omega
        rw [hf, hrun (extra + 1)]
        exact buildLoop_done R ctx extra (0 + N) c1 w1 ctxErr (by rw [henv]; exact hdone)
      exact ⟨_, hget, rfl, fun _ => ⟨rfl, hbuilds⟩⟩
  · intro c2 ctx2 w2 herr
    obtain ⟨err, he⟩ := Option.ne_none_iff_exists'.mp herr
    simp [client.buildChannel, he]

/-- Witness of C17: under `deadlineRuntime` a manager holding the channel `8`,
which is not established, sees two builds fail and then the context done; it
still holds channel `8`. -/
theorem getOrBuildChannel_failed_builds_keep_channel_witness :
    ∃ r, client.getOrBuildChannel deadlineRuntime 3 ⟨some ⟨8⟩, demoBuilder⟩
        (Context.caller 0) ⟨0, []⟩ = some r ∧
      r.2.1 = ⟨some ⟨8⟩, demoBuilder⟩ ∧
      (client.channelOK deadlineRuntime ⟨some ⟨8⟩, demoBuilder⟩ ⟨0, []⟩ = false →
        r.1 = (none, some (fmtErrorf "getOrBuildChannel: %w" (Error.external 9))) ∧
        buildCount r.2.2.trace = 2) :=
  (getOrBuildChannel_failed_builds_keep_channel deadlineRuntime ⟨some ⟨8⟩, demoBuilder⟩
    ⟨0, []⟩ (Context.caller 0) 2 0 (Error.external 9)
    (by
      intro k hk
      have h2 : k = 0 ∨ k = 1 := by omega
      rcases h2 with h | h <;> subst h <;> decide)
    (by
      intro k hk
      have h2 : k = 0 ∨ k = 1 := by omega
      rcases h2 with h | h <;> subst h <;> decide)
    (by decide)).1

end Lime
